import Mathlib

/-
Verification development for the schema-merge engine in
src/document_store/mongodb_controller.py (classes FieldBaseClass,
DocumentObject, TypeObject, IterableObject and function bind_to_object),
together with a name-resolution model of the module's import behaviour.

Python dictionaries are embedded as association lists that preserve
insertion order: assignment to an existing key keeps its position,
assignment to a fresh key appends at the end, exactly like CPython dicts.
-/

namespace DocStore

/-- Runtime types of the document values the program can encounter.
These are the exact `type(value)` keys relevant to
`FieldBaseClass.type_map`, plus `bytes` (a representable BSON binary blob
whose runtime type is not a key of that dictionary). -/
inductive PyType where
  | dict
  | list
  | tuple
  | set
  | str
  | int
  | float
  | bool
  | datetime
  | noneType
  | objectId
  | bytes
deriving DecidableEq, Repr

/-- Python source name of each runtime type, as `str(type)` prints it
between the quotes of `<class '...'>`. -/
def pyTypeName : PyType → String
  | .dict => "dict"
  | .list => "list"
  | .tuple => "tuple"
  | .set => "set"
  | .str => "str"
  | .int => "int"
  | .float => "float"
  | .bool => "bool"
  | .datetime => "datetime.datetime"
  | .noneType => "NoneType"
  | .objectId => "bson.objectid.ObjectId"
  | .bytes => "bytes"

/-- The ASCII apostrophe character, used by Python's `str(type)` rendering. -/
def quoteChar : Char := Char.ofNat 39

/-- What Python's `str(t)` returns for a type object `t`,
e.g. `<class ...int...>` with apostrophes around the name. -/
def pyClassStr (t : PyType) : String :=
  "<class " ++ quoteChar.toString ++ pyTypeName t ++ quoteChar.toString ++ ">"

/-- Lookup in `FieldBaseClass.type_map`, the dictionary keyed by concrete
runtime types.  `none` models the `KeyError` raised when `type(value)` is
not among the keys.  The `collections.abc.Iterable` key of the source
dictionary is unreachable (no value's concrete `type()` is that abstract
class), so it does not correspond to any `PyType`. -/
def type_map : PyType → Option String
  | .dict => some "object"
  | .list => some "list"
  | .tuple => some "list"
  | .set => some "list"
  | .str => some "single_type"
  | .int => some "single_type"
  | .datetime => some "single_type"
  | .noneType => some "single_type"
  | .bool => some "single_type"
  | .float => some "single_type"
  | .objectId => some "single_type"
  | .bytes => none

/-- A document value: a (possibly nested) Python value as decoded from the
document store.  Scalar payloads other than strings, integers and booleans
are irrelevant to the engine (the code only ever inspects `type(value)` of
a scalar), so those constructors carry no payload. -/
inductive Value where
  | dict (fields : List (String × Value))
  | list (elems : List Value)
  | str (s : String)
  | int (n : Int)
  | bool (b : Bool)
  | float
  | datetime
  | null
  | objectId
  | binary

/-- The concrete runtime type of a value, Python's `type(value)`. -/
def pytype : Value → PyType
  | .dict _ => .dict
  | .list _ => .list
  | .str _ => .str
  | .int _ => .int
  | .bool _ => .bool
  | .float => .float
  | .datetime => .datetime
  | .null => .noneType
  | .objectId => .objectId
  | .binary => .bytes

/-- The classification expression `self.type_map[type(value)]` used by
`DocumentObject.update` and `IterableObject.update`. -/
def classify (v : Value) : Option String := type_map (pytype v)

/-- First-match lookup in an insertion-ordered Python dict. -/
def dictGet {α : Type} : List (String × α) → String → Option α
  | [], _ => none
  | (k, v) :: rest, key => if k = key then some v else dictGet rest key

/-- Python dict assignment `d[key] = val`: replaces in place when the key
exists (keeping its position), appends at the end otherwise. -/
def dictSet {α : Type} : List (String × α) → String → α → List (String × α)
  | [], key, val => [(key, val)]
  | (k, v) :: rest, key, val =>
      if k = key then (key, val) :: rest else (k, v) :: dictSet rest key val

/-- The `children` field of `TypeObject`: either a single type object or a
list of type objects (the source switches representation on the second
distinct type observed). -/
inductive TypeChildren where
  | single (t : PyType)
  | multi (ts : List PyType)
deriving DecidableEq, Repr

/-- A schema node: `TypeObject`, `DocumentObject` or `IterableObject`,
identified with its `children` payload.  A `DocumentObject`'s children map
field names to a per-category map from category tag to child node. -/
inductive Node where
  | typeObj (children : TypeChildren)
  | docObj (children : List (String × List (String × Node)))
  | iterObj (children : List Node)

/-- A field's category map (the inner dict `self.children[key]`). -/
abbrev CatMap := List (String × Node)

/-- The `children` dict of a `DocumentObject`. -/
abbrev DocChildren := List (String × CatMap)

/-- The three node classes, as compared by `type(child) is value_type` in
`IterableObject.update`. -/
inductive Kind where
  | kDoc
  | kIter
  | kType
deriving DecidableEq, Repr

/-- The concrete class of a node. -/
def nodeKind : Node → Kind
  | .typeObj _ => .kType
  | .docObj _ => .kDoc
  | .iterObj _ => .kIter

/-- `bind_to_object`: maps a category tag to the node class used for it;
any tag other than "object" and "list" falls into the `else` branch and
yields `TypeObject`. -/
def bind_to_object (s : String) : Kind :=
  if s = "object" then .kDoc else if s = "list" then .kIter else .kType

/-- `TypeObject.update`: adds `type(value)` to the stored type(s) unless it
is already present; a second distinct type switches the representation to
a two-element list, later distinct types are appended. -/
def typeUpdate : TypeChildren → PyType → TypeChildren
  | .single t, t2 => if t = t2 then .single t else .multi [t, t2]
  | .multi ts, t2 => if t2 ∈ ts then .multi ts else .multi (ts ++ [t2])

mutual

/-- Dynamic dispatch of `child.update(value)` on the node's class.
`TypeObject.update` accepts any value (it only takes `type(value)`);
`DocumentObject.update` requires a mapping (otherwise `.items()` raises,
modelled as `none`); `IterableObject.update` is only ever reached with a
sequence value, any other shape is modelled as a failure. -/
def nodeUpdate : Node → Value → Option Node
  | .typeObj tc, v => some (.typeObj (typeUpdate tc (pytype v)))
  | .docObj ch, .dict fields =>
      match docUpdate ch fields with
      | none => none
      | some ch2 => some (.docObj ch2)
  | .docObj _, _ => none
  | .iterObj ch, .list elems =>
      match iterUpdate ch elems with
      | none => none
      | some ch2 => some (.iterObj ch2)
  | .iterObj _, _ => none
termination_by _ v => (sizeOf v, 0, 0)

/-- One iteration of the `DocumentObject.update` loop, for one
`key, value` pair of the incoming document:

    value_type = self.type_map[type(value)]
    child_value = self.children.get(key, {}).get(value_type)
    if child_value:
        child_value.update(value)
        continue
    self.children[key] = {}
    self.children[key][value_type] = bind_to_object(value_type)(value)

Note that the fallthrough branch replaces the key's whole category map
with a fresh one-entry dict. -/
def docStep (ch : DocChildren) (key : String) (v : Value) : Option DocChildren :=
  match type_map (pytype v) with
  | none => none
  | some vt =>
      let cm := (dictGet ch key).getD []
      match dictGet cm vt with
      | some child =>
          match nodeUpdate child v with
          | none => none
          | some child2 => some (dictSet ch key (dictSet cm vt child2))
      | none =>
          match seed vt v with
          | none => none
          | some n => some (dictSet ch key [(vt, n)])
termination_by (sizeOf v, 1, 0)

/-- `DocumentObject.update`: folds `docStep` over the document's items in
order. -/
def docUpdate (ch : DocChildren) : List (String × Value) → Option DocChildren
  | [] => some ch
  | (key, v) :: rest =>
      match docStep ch key v with
      | none => none
      | some ch2 => docUpdate ch2 rest
termination_by l => (sizeOf l, 2, 0)

/-- The body of one iteration of the `IterableObject.update` loop:
scan `children` for the first child whose class is `value_type` and update
it in place.  `some (some ch2)` means a match was found and updated (the
source then executes `break`); `some none` means no match; `none` models a
raised exception. -/
def iterStep (k : Kind) (v : Value) : List Node → Option (Option (List Node))
  | [] => some none
  | c :: rest =>
      if nodeKind c = k then
        match nodeUpdate c v with
        | none => none
        | some c2 => some (some (c2 :: rest))
      else
        match iterStep k v rest with
        | none => none
        | some none => some none
        | some (some rest2) => some (some (c :: rest2))
termination_by l => (sizeOf v, 1, sizeOf l)

/-- `IterableObject.update`: for each element, look up its target class;
if an existing child of that class is found it is updated and the loop
exits via `break`, leaving all remaining elements unprocessed; otherwise a
newly seeded child is appended and the loop continues. -/
def iterUpdate (ch : List Node) : List Value → Option (List Node)
  | [] => some ch
  | v :: rest =>
      match type_map (pytype v) with
      | none => none
      | some vt =>
          match iterStep (bind_to_object vt) v ch with
          | none => none
          | some (some ch2) => some ch2
          | some none =>
              match seed vt v with
              | none => none
              | some n => iterUpdate (ch ++ [n]) rest
termination_by l => (sizeOf l, 2, 0)

/-- `bind_to_object(value_type)(value)`: constructs a fresh node of the
class chosen for `value_type` and absorbs `value` into it.
`DocumentObject.__init__` and `IterableObject.__init__` start from empty
children and call `update`; `TypeObject.__init__` stores `type(value)`. -/
def seed (vt : String) (v : Value) : Option Node :=
  match bind_to_object vt with
  | .kType => some (.typeObj (.single (pytype v)))
  | .kDoc =>
      match v with
      | .dict fields =>
          match docUpdate [] fields with
          | none => none
          | some ch => some (.docObj ch)
      | _ => none
  | .kIter =>
      match v with
      | .list elems =>
          match iterUpdate [] elems with
          | none => none
          | some ch => some (.iterObj ch)
      | _ => none
termination_by (sizeOf v, 0, 0)

end

/-- A JSON-serializable Python value, the codomain of the `as_json`
methods. -/
inductive Json where
  | str (s : String)
  | arr (xs : List Json)
  | obj (fields : List (String × Json))

mutual

/-- Dispatch of `child.as_json()` on the node's class.
`TypeObject.as_json` renders `str(child)` for a single stored type and a
list of `str(...)` renderings otherwise; `IterableObject.as_json` maps
`as_json` over its children; `DocumentObject.as_json` builds the `out`
dict. -/
def nodeAsJson : Node → Json
  | .typeObj (.single t) => .str (pyClassStr t)
  | .typeObj (.multi ts) => .arr (strsOf ts)
  | .docObj ch => .obj (docAsJson ch [])
  | .iterObj ch => .arr (iterAsJson ch)

/-- The list comprehension `[str(child) for child in self.children]`. -/
def strsOf : List PyType → List Json
  | [] => []
  | t :: rest => .str (pyClassStr t) :: strsOf rest

/-- The list comprehension `[item.as_json() for item in self.children]`. -/
def iterAsJson : List Node → List Json
  | [] => []
  | n :: rest => nodeAsJson n :: iterAsJson rest

/-- The outer loop of `DocumentObject.as_json`, threading the `out` dict. -/
def docAsJson : DocChildren → List (String × Json) → List (String × Json)
  | [], out => out
  | (key, cm) :: rest, out => docAsJson rest (catAsJson key cm out)

/-- The inner loop of `DocumentObject.as_json`:

    for key_2, value_2 in value.items():
        out[key] = {}
        out[key][key_2] = value_2.as_json()

Every inner iteration resets `out[key]` to a fresh dict before writing the
current category, so only the last category of a key survives. -/
def catAsJson (key : String) (cm : CatMap) (out : List (String × Json)) :
    List (String × Json) :=
  match cm with
  | [] => out
  | (c, n) :: rest => catAsJson key rest (dictSet out key (.obj [(c, nodeAsJson n)]))

end

/-- `MongoDBController.set_fields` for one collection: the first fetched
document seeds the tree via `DocumentObject.__init__` (which starts from
empty children and calls `update`), every further document is folded in
via `DocumentObject.update`.  An empty collection makes `documents.next()`
raise `StopIteration`, modelled as `none`. -/
def scanDocs : List (List (String × Value)) → Option DocChildren
  | [] => none
  | d :: ds =>
      ds.foldl (fun acc doc => acc.bind (fun t => docUpdate t doc)) (docUpdate [] d)

/-- The serialized schema of one collection,
`self.fields[collection].as_json()`. -/
def scanAsJson (docs : List (List (String × Value))) : Option Json :=
  (scanDocs docs).map (fun ch => Json.obj (docAsJson ch []))

/-
A name-resolution model of importing src/document_store/mongodb_controller.py.
The module body runs its imports, defines MongoDBController, then executes
the class body of FieldBaseClass.  Because the module's first statement is
`from __future__ import annotations`, variable annotations (including the
malformed `typing.Dict[str]` and the three-parameter
`typing.Dict[typing.Type, str, typing.Type]`) are kept as strings and not
evaluated; the dict literal assigned to `type_map`, however, is evaluated,
and every name appearing in it must resolve.
-/

/-- Names bound at module level in mongodb_controller.py before the
`FieldBaseClass` class body executes: the `__future__` feature name and
the targets of the import statements (note `from collections import abc`
is immediately shadowed by `import abc`), plus the already-defined
controller class. -/
def moduleLevelBindings : List String :=
  ["annotations", "datetime", "os", "logging", "typing", "collections",
   "abc", "pymongo", "database", "errors", "definitions", "MongoDBController"]

/-- Python builtins referenced by the class body. -/
def builtinNames : List String :=
  ["dict", "list", "tuple", "set", "str", "int", "bool", "float", "type", "None"]

/-- The root names referenced by the dict literal assigned to
`FieldBaseClass.type_map`, in evaluation order of its keys. -/
def typeMapLiteralNames : List String :=
  ["dict", "collections", "list", "tuple", "set", "str", "int", "datetime",
   "type", "None", "bool", "float", "bson"]

/-- The first name in the `type_map` literal that resolves neither to a
builtin nor to a module-level binding. -/
def firstUnresolvedName : Option String :=
  typeMapLiteralNames.find?
    (fun n => !(builtinNames.contains n || moduleLevelBindings.contains n))

/-- Importing the module: evaluating the `type_map` literal in the
`FieldBaseClass` class body raises `NameError` at the first unresolvable
name, which aborts the import of the whole module. -/
def importMongodbController : Except String Unit :=
  match firstUnresolvedName with
  | some n =>
      .error ("NameError: name " ++ quoteChar.toString ++ n ++ quoteChar.toString
        ++ " is not defined")
  | none => .ok ()

theorem dictGet_dictSet_self {α : Type} (m : List (String × α)) (k : String) (v : α) :
    dictGet (dictSet m k v) k = some v := by
  induction m with
  | nil => simp [dictGet, dictSet]
  | cons hd tl ih =>
      obtain ⟨k2, v2⟩ := hd
      by_cases h : k2 = k <;> simp [dictGet, dictSet, h, ih]

theorem dictGet_dictSet_ne {α : Type} (m : List (String × α)) (k k2 : String) (v : α)
    (h : k2 ≠ k) : dictGet (dictSet m k v) k2 = dictGet m k2 := by
  have hne : ¬(k = k2) := fun hh => h hh.symm
  induction m with
  | nil => simp [dictGet, dictSet, hne]
  | cons hd tl ih =>
      obtain ⟨k3, v3⟩ := hd
      by_cases h3 : k3 = k
      · subst h3
        simp [dictGet, dictSet, hne]
      · simp only [dictSet, if_neg h3, dictGet, ih]

/-- A successful `docStep` only rewrites the entry of the stepped key. -/
theorem docStep_shape {ch ch2 : DocChildren} {key : String} {v : Value}
    (h : docStep ch key v = some ch2) : ∃ cm2, ch2 = dictSet ch key cm2 := by
  unfold docStep at h
  cases htm : type_map (pytype v) with
  | none => simp only [htm] at h; exact Option.noConfusion h
  | some vt =>
      simp only [htm] at h
      cases hg : dictGet ((dictGet ch key).getD []) vt with
      | some child =>
          simp only [hg] at h
          cases hu : nodeUpdate child v with
          | none => simp only [hu] at h; exact Option.noConfusion h
          | some c2 =>
              simp only [hu] at h
              exact ⟨_, (Option.some.inj h).symm⟩
      | none =>
          simp only [hg] at h
          cases hs : seed vt v with
          | none => simp only [hs] at h; exact Option.noConfusion h
          | some n =>
              simp only [hs] at h
              exact ⟨_, (Option.some.inj h).symm⟩

/-- A successful `docStep` leaves every other key's entry untouched. -/
theorem docStep_frame {ch ch2 : DocChildren} {key key2 : String} {v : Value}
    (h : docStep ch key v = some ch2) (hne : key2 ≠ key) :
    dictGet ch2 key2 = dictGet ch key2 := by
  obtain ⟨cm2, rfl⟩ := docStep_shape h
  exact dictGet_dictSet_ne _ _ _ _ hne

/-- A successful `DocumentObject.update` leaves the entry of every key not
named in the document untouched. -/
theorem docUpdate_frame {ch ch2 : DocChildren} {doc : List (String × Value)} {f : String}
    (h : docUpdate ch doc = some ch2) (hf : f ∉ doc.map Prod.fst) :
    dictGet ch2 f = dictGet ch f := by
  induction doc generalizing ch with
  | nil =>
      unfold docUpdate at h
      cases h
      rfl
  | cons hd rest ih =>
      obtain ⟨key, v⟩ := hd
      unfold docUpdate at h
      cases hs : docStep ch key v with
      | none => simp only [hs] at h; exact Option.noConfusion h
      | some chm =>
          simp only [hs] at h
          simp only [List.map, List.mem_cons] at hf
          push_neg at hf
          rw [ih h hf.2]
          exact docStep_frame hs hf.1

/-- `DocumentObject.update` processes a concatenation of item lists as the
sequential composition of the two updates. -/
theorem docUpdate_append (ch : DocChildren) (l1 l2 : List (String × Value)) :
    docUpdate ch (l1 ++ l2) = (docUpdate ch l1).bind (fun m => docUpdate m l2) := by
  induction l1 generalizing ch with
  | nil => simp [docUpdate]
  | cons hd rest ih =>
      obtain ⟨key, v⟩ := hd
      rw [List.cons_append]
      cases hs : docStep ch key v with
      | none =>
          have hL : docUpdate ch ((key, v) :: (rest ++ l2)) = none := by
            unfold docUpdate; simp only [hs]
          have hR : docUpdate ch ((key, v) :: rest) = none := by
            unfold docUpdate; simp only [hs]
          rw [hL, hR, Option.none_bind]
      | some chm =>
          have hL : docUpdate ch ((key, v) :: (rest ++ l2)) = docUpdate chm (rest ++ l2) := by
            conv_lhs => rw [docUpdate.eq_def]
            simp only [hs]
          have hR : docUpdate ch ((key, v) :: rest) = docUpdate chm rest := by
            conv_lhs => rw [docUpdate.eq_def]
            simp only [hs]
          rw [hL, hR, ih chm]

/-- Seeding under the `"single_type"` tag always builds a one-type
`TypeObject`, because `bind_to_object` sends every tag other than
`"object"` and `"list"` to `TypeObject`. -/
theorem seed_single_type (v : Value) :
    seed "single_type" v = some (.typeObj (.single (pytype v))) := by
  cases v <;> simp [seed, bind_to_object]

/-- Stepping a scalar value into a key holding no `"single_type"` child
installs a freshly seeded `TypeObject`, replacing whatever category map
the key had. -/
theorem docStep_scalar_seed {ch : DocChildren} {f : String} {v : Value}
    (hcls : classify v = some "single_type")
    (hfresh : dictGet ((dictGet ch f).getD []) "single_type" = none) :
    docStep ch f v =
      some (dictSet ch f [("single_type", .typeObj (.single (pytype v)))]) := by
  unfold docStep
  simp only [show type_map (pytype v) = some "single_type" from hcls, hfresh,
    seed_single_type]

/-- Stepping a scalar value into a key whose category map is exactly a
`"single_type"` entry holding a `TypeObject` updates that `TypeObject` in
place. -/
theorem docStep_scalar_existing {ch : DocChildren} {f : String} {v : Value}
    {tc : TypeChildren}
    (hcls : classify v = some "single_type")
    (hget : dictGet ch f = some [("single_type", .typeObj tc)]) :
    docStep ch f v =
      some (dictSet ch f
        [("single_type", .typeObj (typeUpdate tc (pytype v)))]) := by
  unfold docStep
  simp only [show type_map (pytype v) = some "single_type" from hcls, hget, Option.getD_some]
  simp [dictGet, nodeUpdate, dictSet]

/-- A document that names the field `f` exactly once, with a scalar value,
and starts from a tree whose `f` entry has no `"single_type"` child,
leaves `f` holding a one-type `TypeObject`. -/
theorem docUpdate_field_seed {ch ch2 : DocChildren} {f : String} {v : Value}
    {p q : List (String × Value)}
    (hp : f ∉ p.map Prod.fst) (hq : f ∉ q.map Prod.fst)
    (hcls : classify v = some "single_type")
    (hfresh : dictGet ch f = none)
    (h : docUpdate ch (p ++ (f, v) :: q) = some ch2) :
    dictGet ch2 f = some [("single_type", .typeObj (.single (pytype v)))] := by
  rw [docUpdate_append] at h
  cases h1 : docUpdate ch p with
  | none => rw [h1] at h; cases h
  | some m1 =>
      rw [h1] at h
      simp only [Option.some_bind] at h
      unfold docUpdate at h
      have hm1 : dictGet m1 f = none := by rw [docUpdate_frame h1 hp, hfresh]
      simp only [docStep_scalar_seed hcls (by rw [hm1]; rfl)] at h
      rw [docUpdate_frame h hq, dictGet_dictSet_self]

/-- A document that names the field `f` exactly once, with a scalar value,
and starts from a tree whose `f` entry is a pure `"single_type"` map,
updates the stored type set in place. -/
theorem docUpdate_field_update {ch ch2 : DocChildren} {f : String} {v : Value}
    {tc : TypeChildren} {p q : List (String × Value)}
    (hp : f ∉ p.map Prod.fst) (hq : f ∉ q.map Prod.fst)
    (hcls : classify v = some "single_type")
    (hget : dictGet ch f = some [("single_type", .typeObj tc)])
    (h : docUpdate ch (p ++ (f, v) :: q) = some ch2) :
    dictGet ch2 f =
      some [("single_type", .typeObj (typeUpdate tc (pytype v)))] := by
  rw [docUpdate_append] at h
  cases h1 : docUpdate ch p with
  | none => rw [h1] at h; cases h
  | some m1 =>
      rw [h1] at h
      simp only [Option.some_bind] at h
      unfold docUpdate at h
      have hm1 : dictGet m1 f = some [("single_type", .typeObj tc)] := by
        rw [docUpdate_frame h1 hp, hget]
      simp only [docStep_scalar_existing hcls hm1] at h
      rw [docUpdate_frame h hq, dictGet_dictSet_self]

/-- C1: the claim says merging never deletes existing entries and that a
field observed first as Scalar and later as Record keeps both categories
side by side.  The code instead executes `self.children[key] = {}` before
installing the new category, discarding the old one: after merging
`{"a": 1}` the tree holds `a -> {"single_type": ...}`, but merging
`{"a": {"b": 2}}` next leaves `a` with only the `"object"` entry and no
`"single_type"` entry at all. -/
theorem merge_overwrites_previous_category :
    scanDocs [[("a", Value.int 1)]] =
      some [("a", [("single_type", Node.typeObj (.single .int))])] ∧
    scanDocs [[("a", Value.int 1)], [("a", Value.dict [("b", Value.int 2)])]] =
      some [("a", [("object",
        Node.docObj [("b", [("single_type", Node.typeObj (.single .int))])])])] ∧
    dictGet [("object",
        Node.docObj [("b", [("single_type", Node.typeObj (.single .int))])])]
      "single_type" = none := by
  refine ⟨?_, ?_, by simp [dictGet]⟩ <;>
    simp [scanDocs, docUpdate, docStep, nodeUpdate, iterUpdate, iterStep, seed,
      typeUpdate, dictGet, dictSet, type_map, pytype, bind_to_object, nodeKind]

/-- C2 counterexample: classification is not total.  A binary blob is a
representable value, but `bytes` is not a key of `type_map`, so
`self.type_map[type(value)]` raises `KeyError` (modelled as `none`) — an
unrecognized-value failure path does exist. -/
theorem classify_binary_blob_fails :
    classify Value.binary = none ∧ pytype Value.binary = PyType.bytes := by
  exact ⟨rfl, rfl⟩

/-- C2 amended: classification is total only on values whose runtime type
is one of the keys of `type_map` (dict, list, tuple, set, str, int, float,
bool, datetime.datetime, NoneType, ObjectId); every value of this model
other than a binary blob classifies successfully. -/
theorem classify_total_on_mapped_types (v : Value)
    (h : pytype v ≠ PyType.bytes) : ∃ c, classify v = some c := by
  cases v
  case binary => exact absurd rfl h
  all_goals exact ⟨_, rfl⟩

/-- C2 witness: a text value satisfies the hypothesis and classifies. -/
theorem classify_total_on_mapped_types_witness :
    pytype (Value.str "abc") ≠ PyType.bytes ∧ ∃ c, classify (Value.str "abc") = some c :=
  ⟨by decide, classify_total_on_mapped_types (Value.str "abc") (by decide)⟩

/-- C3: the claim says every element of an incoming array is merged, and
that merging `{"a": [{"x": 1}]}` then `{"a": [{"x": 2}, {"y": 3}]}` yields
one Record variant containing both `x` and `y`.  The code instead executes
`break` (not `continue`) after updating the first element that matches an
existing variant, so `{"y": 3}` is never processed: the resulting tree is
identical to the one built from the first document alone, and the
serialized Record variant holds only `x`. -/
theorem array_merge_break_skips_rest :
    scanDocs [[("a", Value.list [Value.dict [("x", Value.int 1)]])],
        [("a", Value.list [Value.dict [("x", Value.int 2)],
          Value.dict [("y", Value.int 3)]])]] =
      some [("a", [("list", Node.iterObj
        [Node.docObj [("x", [("single_type", Node.typeObj (.single .int))])]])])] ∧
    scanAsJson [[("a", Value.list [Value.dict [("x", Value.int 1)]])],
        [("a", Value.list [Value.dict [("x", Value.int 2)],
          Value.dict [("y", Value.int 3)]])]] =
      some (.obj [("a", .obj [("list", .arr
        [.obj [("x", .obj [("single_type", .str (pyClassStr .int))])]])])]) := by
  constructor <;>
    simp [scanDocs, scanAsJson, docUpdate, docStep, nodeUpdate, iterUpdate, iterStep,
      seed, typeUpdate, dictGet, dictSet, type_map, pytype, bind_to_object, nodeKind,
      nodeAsJson, docAsJson, catAsJson, iterAsJson, strsOf]

/-- C4: for every field `f` and every pair of documents that present `f`
with scalar values of two different runtime types (and mention `f` exactly
once each), scanning the two documents in order leaves `f` holding the
two type tags in arrival order, scanning them in the other order leaves
the reversed list, the tag list has no duplicates, and in both cases the
field serializes to the tag strings in exactly that stored order. -/
theorem scalar_type_tags_arrival_order
    (f : String) (v1 v2 : Value) (p1 q1 p2 q2 : List (String × Value))
    (T T2 : DocChildren)
    (h1 : classify v1 = some "single_type") (h2 : classify v2 = some "single_type")
    (hne : pytype v1 ≠ pytype v2)
    (hp1 : f ∉ p1.map Prod.fst) (hq1 : f ∉ q1.map Prod.fst)
    (hp2 : f ∉ p2.map Prod.fst) (hq2 : f ∉ q2.map Prod.fst)
    (hT : scanDocs [p1 ++ (f, v1) :: q1, p2 ++ (f, v2) :: q2] = some T)
    (hT2 : scanDocs [p2 ++ (f, v2) :: q2, p1 ++ (f, v1) :: q1] = some T2) :
    dictGet T f = some [("single_type", .typeObj (.multi [pytype v1, pytype v2]))]
    ∧ dictGet T2 f = some [("single_type", .typeObj (.multi [pytype v2, pytype v1]))]
    ∧ [pytype v1, pytype v2].Nodup
    ∧ nodeAsJson (.typeObj (.multi [pytype v1, pytype v2]))
        = .arr [.str (pyClassStr (pytype v1)), .str (pyClassStr (pytype v2))]
    ∧ nodeAsJson (.typeObj (.multi [pytype v2, pytype v1]))
        = .arr [.str (pyClassStr (pytype v2)), .str (pyClassStr (pytype v1))] := by
  simp only [scanDocs, List.foldl] at hT hT2
  refine ⟨?_, ?_, by simp [hne], by simp [nodeAsJson, strsOf], by simp [nodeAsJson, strsOf]⟩
  · cases hA : docUpdate [] (p1 ++ (f, v1) :: q1) with
    | none => rw [hA] at hT; cases hT
    | some A =>
        rw [hA] at hT
        simp only [Option.some_bind] at hT
        have hAf : dictGet A f = some [("single_type", .typeObj (.single (pytype v1)))] :=
          docUpdate_field_seed hp1 hq1 h1
            (show dictGet ([] : DocChildren) f = none from rfl) hA
        have := docUpdate_field_update hp2 hq2 h2 hAf hT
        rwa [show typeUpdate (.single (pytype v1)) (pytype v2)
            = .multi [pytype v1, pytype v2] by simp [typeUpdate, hne]] at this
  · cases hA : docUpdate [] (p2 ++ (f, v2) :: q2) with
    | none => rw [hA] at hT2; cases hT2
    | some A =>
        rw [hA] at hT2
        simp only [Option.some_bind] at hT2
        have hAf : dictGet A f = some [("single_type", .typeObj (.single (pytype v2)))] :=
          docUpdate_field_seed hp2 hq2 h2
            (show dictGet ([] : DocChildren) f = none from rfl) hA
        have := docUpdate_field_update hp1 hq1 h1 hAf hT2
        rwa [show typeUpdate (.single (pytype v2)) (pytype v1)
            = .multi [pytype v2, pytype v1] by simp [typeUpdate, Ne.symm hne]] at this

/-- C4 witness: the documents `{"a": 1}` and `{"a": "x"}` instantiate the
theorem; both scan orders succeed and produce the two tag lists in the
corresponding arrival orders. -/
theorem scalar_type_tags_arrival_order_witness :
    classify (Value.int 1) = some "single_type"
    ∧ classify (Value.str "x") = some "single_type"
    ∧ pytype (Value.int 1) ≠ pytype (Value.str "x")
    ∧ scanDocs [[("a", Value.int 1)], [("a", Value.str "x")]] =
        some [("a", [("single_type", Node.typeObj (.multi [.int, .str]))])]
    ∧ scanDocs [[("a", Value.str "x")], [("a", Value.int 1)]] =
        some [("a", [("single_type", Node.typeObj (.multi [.str, .int]))])]
    ∧ dictGet [("a", [("single_type", Node.typeObj (.multi [.int, .str]))])] "a" =
        some [("single_type",
          Node.typeObj (.multi [pytype (Value.int 1), pytype (Value.str "x")]))] := by
  have hs1 : scanDocs [[("a", Value.int 1)], [("a", Value.str "x")]] =
      some [("a", [("single_type", Node.typeObj (.multi [.int, .str]))])] := by
    simp [scanDocs, docUpdate, docStep, nodeUpdate, iterUpdate, iterStep, seed,
      typeUpdate, dictGet, dictSet, type_map, pytype, bind_to_object, nodeKind]
  have hs2 : scanDocs [[("a", Value.str "x")], [("a", Value.int 1)]] =
      some [("a", [("single_type", Node.typeObj (.multi [.str, .int]))])] := by
    simp [scanDocs, docUpdate, docStep, nodeUpdate, iterUpdate, iterStep, seed,
      typeUpdate, dictGet, dictSet, type_map, pytype, bind_to_object, nodeKind]
  refine ⟨rfl, rfl, by decide, hs1, hs2, ?_⟩
  exact (scalar_type_tags_arrival_order "a" (Value.int 1) (Value.str "x")
    [] [] [] [] _ _ rfl rfl (by decide) (by simp) (by simp) (by simp) (by simp)
    hs1 hs2).1

/-- C5 counterexample: Scenario A does not serialize field `a` as
`{"single_type": ["int", "str"]}` — `TypeObject.as_json` renders each
stored type object with `str(...)`, which produces `<class ...>` strings,
not plain type names. -/
theorem scenario_a_plain_tags_refuted :
    scanAsJson [[("a", Value.int 1)], [("a", Value.str "x")]] ≠
      some (.obj [("a", .obj [("single_type", .arr [.str "int", .str "str"])])]) := by
  have h : scanAsJson [[("a", Value.int 1)], [("a", Value.str "x")]] =
      some (.obj [("a", .obj [("single_type",
        .arr [.str (pyClassStr .int), .str (pyClassStr .str)])])]) := by
    simp [scanDocs, scanAsJson, docUpdate, docStep, nodeUpdate, iterUpdate, iterStep,
      seed, typeUpdate, dictGet, dictSet, type_map, pytype, bind_to_object, nodeKind,
      nodeAsJson, docAsJson, catAsJson, iterAsJson, strsOf]
  rw [h]
  simp +decide [pyClassStr, pyTypeName, quoteChar]

/-- C5 amended: merging `{"a": 1}` then `{"a": "x"}` serializes field `a`
as `{"single_type": [str(int), str(str)]}`, i.e. the tags are the strings
`<class ...int...>` and `<class ...str...>` produced by `str` applied to
the type objects, in arrival order. -/
theorem scenario_a_serializes_class_strings :
    scanAsJson [[("a", Value.int 1)], [("a", Value.str "x")]] =
      some (.obj [("a", .obj [("single_type",
        .arr [.str (pyClassStr .int), .str (pyClassStr .str)])])]) := by
  simp [scanDocs, scanAsJson, docUpdate, docStep, nodeUpdate, iterUpdate, iterStep,
    seed, typeUpdate, dictGet, dictSet, type_map, pytype, bind_to_object, nodeKind,
    nodeAsJson, docAsJson, catAsJson, iterAsJson, strsOf]

/-- C6: the claim says merging the same document twice serializes the same
schema as merging it once.  For `d = {"a": [{"x": 1}, {"x": {}}]}` this
fails: seeding from `d` leaves `x` under `"object"` (the second array
element overwrote the `"single_type"` entry), while merging `d` once more
flips `x` back to `"single_type"` and then stops at the `break`, so the
two serialized schemas differ. -/
theorem double_merge_differs_from_single :
    scanAsJson [[("a", Value.list [Value.dict [("x", Value.int 1)],
        Value.dict [("x", Value.dict [])]])]] =
      some (.obj [("a", .obj [("list", .arr
        [.obj [("x", .obj [("object", .obj [])])]])])]) ∧
    scanAsJson [[("a", Value.list [Value.dict [("x", Value.int 1)],
        Value.dict [("x", Value.dict [])]])],
      [("a", Value.list [Value.dict [("x", Value.int 1)],
        Value.dict [("x", Value.dict [])]])]] =
      some (.obj [("a", .obj [("list", .arr
        [.obj [("x", .obj [("single_type", .str (pyClassStr .int))])]])])]) ∧
    (Json.obj [("a", .obj [("list", .arr
        [.obj [("x", .obj [("object", .obj [])])]])])]) ≠
      (Json.obj [("a", .obj [("list", .arr
        [.obj [("x", .obj [("single_type", .str (pyClassStr .int))])]])])]) := by
  refine ⟨?_, ?_, by simp +decide⟩ <;>
    simp [scanDocs, scanAsJson, docUpdate, docStep, nodeUpdate, iterUpdate, iterStep,
      seed, typeUpdate, dictGet, dictSet, type_map, pytype, bind_to_object, nodeKind,
      nodeAsJson, docAsJson, catAsJson, iterAsJson, strsOf]

/-- C7: a text value always classifies as `"single_type"` (Scalar), never
as `"list"` (Array), because the `type_map` lookup is keyed by the exact
runtime type `str`, not by iterability. -/
theorem classify_text_is_scalar (s : String) :
    classify (Value.str s) = some "single_type"
    ∧ classify (Value.str s) ≠ some "list" :=
  ⟨rfl, by simp [classify, pytype, type_map]⟩

/-- C8: the engine module cannot be imported.  Evaluating the dict literal
assigned to `FieldBaseClass.type_map` references the name `bson`, which
no import statement of the module binds and which is not a builtin, so the
class-body evaluation raises `NameError` and the module import fails; no
merge operation is reachable at runtime.  (The malformed typing subscripts
in the annotations are kept as strings by `from __future__ import
annotations` and are therefore never evaluated.) -/
theorem module_import_bson_name_error :
    firstUnresolvedName = some "bson"
    ∧ importMongodbController ≠ .ok ()
    ∧ "bson" ∉ moduleLevelBindings
    ∧ "bson" ∉ builtinNames := by
  have h1 : firstUnresolvedName = some "bson" := by decide
  refine ⟨h1, ?_, by decide, by decide⟩
  simp [importMongodbController, h1]

end DocStore
